import Mathlib

/-!
Verification of the PPG signal-analysis pipeline
(`scripts/preprocessing.py`, `scripts/feature_extraction.py`,
`scripts/arrhythmia_detection.py`).

Signals are embedded as `List ℚ` (Python floats modelled as exact rationals;
the float literals `0.6`, `0.4`, `0.5`, `0.15`, `0.2` are modelled as the
rationals they denote — at every sampling rate appearing in a concrete theorem
below, the `int`/`ceil` thresholding of the distance parameter agrees between
the double-precision value and the rational one).  Peak index sets are
`List ℕ`.  Fallible NumPy/SciPy operations (the `distance < 1` validation of
`scipy.signal.find_peaks`, reductions over empty arrays) are modelled with
`Except String`.
-/

namespace PPG

/-- `np.mean`: sum divided by length (callers guard the empty case; on `[]`
this rational version yields `0/0 = 0`). -/
def meanQ (l : List ℚ) : ℚ := l.sum / (l.length : ℚ)

/-- `np.std(l) ^ 2`: the population variance (`ddof = 0`), i.e. the mean of
the squared deviations from the mean.  `np.std` itself is the real square
root of this quantity; the comparison `np.std l > t` is recovered from
`varQ` in `detect_irregular_heart_rate` below. -/
def varQ (l : List ℚ) : ℚ := meanQ (l.map (fun v => (v - meanQ l) ^ 2))

/-- `np.min` on a non-empty list (the caller handles emptiness). -/
def npMin (l : List ℚ) : ℚ := l.foldl min (l.headD 0)

/-- `np.max` on a non-empty list (the caller handles emptiness). -/
def npMax (l : List ℚ) : ℚ := l.foldl max (l.headD 0)

/-- `np.diff(peaks) / sampling_rate`: consecutive index gaps converted to
seconds. -/
def rrIntervals (pks : List ℕ) (rate : ℕ) : List ℚ :=
  List.zipWith (fun (a b : ℕ) => ((b : ℚ) - (a : ℚ)) / (rate : ℚ)) pks pks.tail

instance {ε α : Type} [DecidableEq ε] [DecidableEq α] : DecidableEq (Except ε α) :=
  fun a b =>
    match a, b with
    | .ok a, .ok b =>
      match decEq a b with
      | isTrue h => isTrue (h ▸ rfl)
      | isFalse h => isFalse (fun hh => h (Except.ok.inj hh))
    | .error a, .error b =>
      match decEq a b with
      | isTrue h => isTrue (h ▸ rfl)
      | isFalse h => isFalse (fun hh => h (Except.error.inj hh))
    | .ok _, .error _ => isFalse (fun hh => Except.noConfusion hh)
    | .error _, .ok _ => isFalse (fun hh => Except.noConfusion hh)

/-!
### `scipy.signal.find_peaks`

`_local_maxima_1d` scans indices `1 ≤ i < n - 1`; a rise `x[i-1] < x[i]`
followed (after an optional plateau of equal values) by a fall marks a peak,
recorded at the plateau midpoint `(left + right) / 2`, and the scan resumes
one past the end of the plateau.  The two loops below are written with an
explicit fuel argument so that they are structurally recursive (hence
kernel-reducible); the fuel is chosen so that it can never run out before
the scan index reaches its bound, so the functions compute exactly what the
unbounded loops compute.
-/

/-- Inner plateau scan of `_local_maxima_1d`: starting at `k`, advance while
`k < imax` and `x[k] = v`; returns the first index where the scan stops.
Fuel invariant: the loop advances `k` by one per step, so `imax - k` steps
suffice; when the fuel reaches `0`, `k` has reached `imax` and the unbounded
loop would stop as well. -/
def findPlateauEndF (x : List ℚ) (imax : ℕ) (v : ℚ) : ℕ → ℕ → ℕ
  | 0, k => k
  | fuel + 1, k =>
    if k < imax ∧ x.getD k 0 = v then findPlateauEndF x imax v fuel (k + 1) else k

/-- Outer scan of `_local_maxima_1d` from index `i` (exclusive bound `imax`).
Fuel invariant: `i` strictly increases at every recursive call, so
`imax` units of fuel (from the wrapper, starting at `i = 1`) suffice. -/
def localMaximaF (x : List ℚ) (imax : ℕ) : ℕ → ℕ → List ℕ
  | 0, _ => []
  | fuel + 1, i =>
    if i < imax then
      if x.getD (i - 1) 0 < x.getD i 0 then
        let ia := findPlateauEndF x imax (x.getD i 0) (imax - (i + 1)) (i + 1)
        if x.getD ia 0 < x.getD i 0 then
          (i + (ia - 1)) / 2 :: localMaximaF x imax fuel (ia + 1)
        else
          localMaximaF x imax fuel (i + 1)
      else
        localMaximaF x imax fuel (i + 1)
    else []

/-- `scipy.signal._peak_finding_utils._local_maxima_1d`: plateau-midpoint
local maxima of `x`, in increasing index order.  Boundary samples never
qualify. -/
def local_maxima_1d (x : List ℚ) : List ℕ :=
  localMaximaF x (x.length - 1) x.length 1

/-- The `height` filter of `find_peaks`: keep peaks whose sample value is at
least the (optional) minimal height. -/
def heightFilter (x : List ℚ) (pks : List ℕ) (height : Option ℚ) : List ℕ :=
  match height with
  | none => pks
  | some h => pks.filter (fun p => h ≤ x.getD p 0)

/-- Processing priority used by `_select_by_peak_distance`: position `j`
comes before position `k` when the peak at `j` is higher, or at equal height
when `j` is the later position (NumPy's `argsort` order, iterated from the
highest priority downward). -/
def priorityGtB (x : List ℚ) (pks : List ℕ) (j k : ℕ) : Bool :=
  decide (x.getD (pks.getD k 0) 0 < x.getD (pks.getD j 0) 0 ∨
    (x.getD (pks.getD j 0) 0 = x.getD (pks.getD k 0) 0 ∧ k < j))

/-- Insertion step of the insertion sort used to model the `argsort`. -/
def insertBy (f : ℕ → ℕ → Bool) (a : ℕ) : List ℕ → List ℕ
  | [] => [a]
  | b :: l => if f a b then a :: b :: l else b :: insertBy f a l

/-- Insertion sort by the given strict "comes before" test. -/
def sortBy (f : ℕ → ℕ → Bool) (l : List ℕ) : List ℕ := l.foldr (insertBy f) []

/-- Distance between two sample indices. -/
def natDist (a b : ℕ) : ℕ := if a ≤ b then b - a else a - b

/-- One step of `_select_by_peak_distance`: if position `j` is still kept,
discard every other position whose peak lies strictly closer than `d`
samples to the peak at `j`.  (In SciPy this is a left and a right while-loop
that stop at the first peak at distance `≥ d`; since `pks` is increasing,
those loops discard exactly the positions selected here.) -/
def sbpdStep (pks : List ℕ) (d : ℕ) (keep : List Bool) (j : ℕ) : List Bool :=
  if keep.getD j false then
    (List.range pks.length).map (fun k =>
      if k ≠ j ∧ natDist (pks.getD k 0) (pks.getD j 0) < d then false
      else keep.getD k false)
  else keep

/-- `scipy.signal._peak_finding_utils._select_by_peak_distance`: process the
peak positions from the highest peak downward; each surviving peak discards
all strictly-closer-than-`d` neighbours; return the surviving peaks in index
order. -/
def selectByPeakDistance (x : List ℚ) (pks : List ℕ) (d : ℕ) : List ℕ :=
  let order := sortBy (priorityGtB x pks) (List.range pks.length)
  let keep := order.foldl (sbpdStep pks d) (List.replicate pks.length true)
  ((List.range pks.length).filter (fun k => keep.getD k false)).map
    (fun k => pks.getD k 0)

/-- `scipy.signal.find_peaks x (height := height) (distance := distance)`,
restricted to the two keyword arguments this repository uses.  A `distance`
strictly below `1` is rejected with a `ValueError` before any peak search
(SciPy: "`distance` must be greater or equal to 1"); otherwise the distance
is rounded up to an integer and the local maxima are filtered first by
height, then by distance suppression. -/
def find_peaks (x : List ℚ) (height : Option ℚ) (distance : Option ℚ) :
    Except String (List ℕ) :=
  match distance with
  | none => .ok (heightFilter x (local_maxima_1d x) height)
  | some d =>
    if d < 1 then .error "distance must be greater or equal to 1"
    else .ok (selectByPeakDistance x (heightFilter x (local_maxima_1d x) height)
      (Int.toNat ⌈d⌉))

/-! ### `scripts/feature_extraction.py` -/

namespace feature_extraction

/-- `calculate_heart_rate(ppg_signal, sampling_rate)`: peaks with minimum
distance `sampling_rate * 0.6` (no height filter); with fewer than two peaks
the result is `('mean_heart_rate': None, 'heart_rates': [])`; otherwise the
RR intervals are `np.diff(peaks) / sampling_rate`, the per-beat rates are
`60 / rr_intervals`, and the scalar rate is their `np.mean`. -/
def calculate_heart_rate (x : List ℚ) (rate : ℕ) :
    Except String (Option ℚ × List ℚ) :=
  match find_peaks x none (some ((3 / 5 : ℚ) * rate)) with
  | .error e => .error e
  | .ok pks =>
    if pks.length < 2 then .ok (none, [])
    else
      let heart_rates := (rrIntervals pks rate).map (fun r => 60 / r)
      .ok (some (meanQ heart_rates), heart_rates)

/-- `calculate_respiratory_rate(ppg_signal, sampling_rate)`.  The Butterworth
band-pass design plus `filtfilt` (floating-point library filtering, which
also raises when the input is shorter than its padding length) is modelled
by the explicit `bandpass` argument; the rest follows the source: peaks of
the filtered signal with minimum distance `sampling_rate * 2`, `None` with
fewer than two peaks, else `60 / np.mean(rr_intervals)`. -/
def calculate_respiratory_rate (bandpass : List ℚ → Except String (List ℚ))
    (x : List ℚ) (rate : ℕ) : Except String (Option ℚ) :=
  match bandpass x with
  | .error e => .error e
  | .ok filtered =>
    match find_peaks filtered none (some ((rate : ℚ) * 2)) with
    | .error e => .error e
    | .ok pks =>
      if pks.length < 2 then .ok none
      else .ok (some (60 / meanQ (rrIntervals pks rate)))

/-- `calculate_systolic_amplitude(ppg_signal)`: `np.max - np.min`
(`np.max` raises on an empty array). -/
def calculate_systolic_amplitude (x : List ℚ) : Except String ℚ :=
  if x = [] then .error "zero-size array to reduction operation maximum"
  else .ok (npMax x - npMin x)

/-- The SNR component of `calculate_signal_quality_metrics(ppg_signal)`:
noise is the mean-removed signal, and the SNR is
`np.mean(signal ** 2) / np.mean(noise ** 2)` guarded by
`np.mean(noise ** 2) > 0`, else `0`.  The `kurtosis` and `skew` components
(SciPy library moment statistics, referenced by no claim) are omitted. -/
def calculate_signal_quality_metrics (x : List ℚ) : ℚ :=
  let noise_signal := x.map (fun v => v - meanQ x)
  let noise_power := meanQ (noise_signal.map (fun v => v ^ 2))
  if noise_power > 0 then meanQ (x.map (fun v => v ^ 2)) / noise_power else 0

/-- The feature dictionary produced by `extract_features`: the scalar heart
rate (per-beat rates are not part of the dictionary), respiratory rate,
systolic amplitude and SNR (kurtosis/skewness omitted as above). -/
structure FeatureRecord where
  heartRate : Option ℚ
  respiratoryRate : Option ℚ
  systolicAmplitude : ℚ
  snr : ℚ
  deriving DecidableEq

/-- `extract_features(ppg_signal, sampling_rate)`: the four sub-computations
in source order, each exception propagating. -/
def extract_features (bandpass : List ℚ → Except String (List ℚ))
    (x : List ℚ) (rate : ℕ) : Except String FeatureRecord :=
  match calculate_heart_rate x rate with
  | .error e => .error e
  | .ok hr =>
    match calculate_respiratory_rate bandpass x rate with
    | .error e => .error e
    | .ok resp =>
      match calculate_systolic_amplitude x with
      | .error e => .error e
      | .ok sys => .ok ⟨hr.1, resp, sys, calculate_signal_quality_metrics x⟩

end feature_extraction

/-! ### `scripts/arrhythmia_detection.py` -/

namespace arrhythmia_detection

/-- `calculate_rr_intervals(ppg_signal, sampling_rate)` at its default
parameters `height_threshold=0.5`, `min_distance_factor=0.4` (the only ones
`detect_arrhythmia` uses): peaks with height `0.5` and distance
`int(sampling_rate * 0.4)` — note the truncation to an integer *before* the
call — then RR intervals only when more than one peak exists. -/
def calculate_rr_intervals (x : List ℚ) (rate : ℕ) :
    Except String (List ℚ × List ℕ) :=
  match find_peaks x (some (1 / 2)) (some ((2 * rate / 5 : ℕ) : ℚ)) with
  | .error e => .error e
  | .ok pks =>
    .ok (if 1 < pks.length then rrIntervals pks rate else [], pks)

/-- `calculate_heart_rate(rr_intervals)` (arrhythmia-module version):
`0` on an empty interval list, else `60 / np.mean(rr_intervals)`. -/
def calculate_heart_rate (rr : List ℚ) : ℚ :=
  if rr.length = 0 then 0 else 60 / meanQ rr

/-- `detect_irregular_heart_rate(rr_intervals, threshold)`: `False` on an
empty list, else `np.std(rr_intervals) > threshold`.  `np.std` is the real
square root of the population variance `varQ`, which a rational-valued
definition cannot take; since `√v > t ↔ t < 0 ∨ t² < v` for `v ≥ 0`
(`detect_irregular_eq_std` below proves this embedding equal to the
square-root formulation), the comparison is embedded square-free. -/
def detect_irregular_heart_rate (rr : List ℚ) (threshold : ℚ) : Bool :=
  if rr.length = 0 then false
  else decide (threshold < 0 ∨ threshold ^ 2 < varQ rr)

/-- `detect_abnormal_waveform(ppg_signal, threshold)`: all unconstrained
peaks of the signal and of its negation, the pairwise differences
`signal[peaks[i]] - signal[valleys[i]]` up to the shorter count (`False`
when that count is zero), and a strict-excess test against the threshold. -/
def detect_abnormal_waveform (x : List ℚ) (threshold : ℚ) : Bool :=
  let pks := match find_peaks x none none with | .ok p => p | .error _ => []
  let vls := match find_peaks (x.map (fun v => -v)) none none with
    | .ok p => p | .error _ => []
  let min_len := min pks.length vls.length
  if min_len = 0 then false
  else
    ((List.range min_len).map (fun i =>
      x.getD (pks.getD i 0) 0 - x.getD (vls.getD i 0) 0)).any
      (fun diff => decide (threshold < diff))

/-- The 4-tuple returned by `detect_arrhythmia`. -/
structure Verdict where
  irregular_heart_rate : Bool
  abnormal_waveform : Bool
  start_time : Option ℚ
  end_time : Option ℚ
  deriving DecidableEq

/-- Lines 110–127 of `detect_arrhythmia` (everything after the RR-interval
pass, which cannot fail): the insufficient-data early return
`(False, False, None, None)`; the internally computed (and unused) heart
rate; both detector flags; and episode bounds `peaks[0] / sampling_rate`,
`peaks[-1] / sampling_rate` populated only when the heart-rate flag is set
and more than one peak exists. -/
def detect_arrhythmia_body (x : List ℚ) (rate : ℕ)
    (threshold_heart_rate threshold_waveform : ℚ)
    (rr : List ℚ) (pks : List ℕ) : Verdict :=
  if rr.length = 0 ∨ pks.length = 0 then ⟨false, false, none, none⟩
  else
    let _heart_rate := calculate_heart_rate rr
    let irregular := detect_irregular_heart_rate rr threshold_heart_rate
    let abnormal := detect_abnormal_waveform x threshold_waveform
    let bounds :=
      if irregular ∧ 1 < pks.length then
        (some ((pks.headD 0 : ℚ) / (rate : ℚ)),
         some ((pks.getLastD 0 : ℚ) / (rate : ℚ)))
      else (none, none)
    ⟨irregular, abnormal, bounds.1, bounds.2⟩

/-- `detect_arrhythmia(ppg_signal, sampling_rate, threshold_heart_rate,
threshold_waveform)`: the RR-interval pass (whose `find_peaks` exception,
if any, propagates) followed by `detect_arrhythmia_body`. -/
def detect_arrhythmia (x : List ℚ) (rate : ℕ)
    (threshold_heart_rate threshold_waveform : ℚ) : Except String Verdict :=
  match calculate_rr_intervals x rate with
  | .error e => .error e
  | .ok (rr, pks) =>
    .ok (detect_arrhythmia_body x rate threshold_heart_rate threshold_waveform
      rr pks)

end arrhythmia_detection

/-! ### `scripts/preprocessing.py` -/

namespace preprocessing

/-- `correct_ppg_signal(ppg_signal)`: shift up by the minimum when it is
negative, then min-max normalize, returning `np.zeros_like` when the range
is zero (`np.min`/`np.max` raise on an empty array). -/
def correct_ppg_signal (x : List ℚ) : Except String (List ℚ) :=
  if x = [] then .error "zero-size array to reduction operation minimum"
  else
    let shifted := if npMin x < 0 then x.map (fun v => v - npMin x) else x
    let signal_range := npMax shifted - npMin shifted
    if signal_range = 0 then .ok (List.replicate shifted.length 0)
    else .ok (shifted.map (fun v => (v - npMin shifted) / signal_range))

end preprocessing

/-- Follows the spec's words for claim C8 ("locate peaks with height
threshold 0.5 and minimum distance `0.4 * samplingRate` samples"): the
Arrhythmia Detector's peak pass with the distance handed to the Peak
Locator as the exact value `0.4 * samplingRate`, to be compared against
`arrhythmia_detection.calculate_rr_intervals`, which truncates that value
to an integer first. -/
def arrhythmia_peak_pass_spec (x : List ℚ) (rate : ℕ) :
    Except String (List ℕ) :=
  find_peaks x (some (1 / 2)) (some ((2 / 5 : ℚ) * rate))

/-! ### Helper lemmas -/

lemma varQ_nonneg (l : List ℚ) : 0 ≤ varQ l := by
  unfold varQ meanQ
  apply div_nonneg _ (Nat.cast_nonneg _)
  apply List.sum_nonneg
  intro v hv
  obtain ⟨a, -, rfl⟩ := List.mem_map.mp hv
  positivity

/-- The square-free comparison used in `detect_irregular_heart_rate` agrees
with the strict comparison of the real square root of a nonnegative rational
(i.e. `np.std` for the variance) against the threshold. -/
lemma lt_sqrt_iff_sq (t v : ℚ) :
    (t < 0 ∨ t ^ 2 < v) ↔ (t : ℝ) < Real.sqrt (v : ℚ) := by
  constructor
  · rintro (ht | ht)
    · calc (t : ℝ) < 0 := by exact_mod_cast ht
        _ ≤ Real.sqrt v := Real.sqrt_nonneg _
    · rcases lt_or_le t 0 with ht0 | ht0
      · calc (t : ℝ) < 0 := by exact_mod_cast ht0
          _ ≤ Real.sqrt v := Real.sqrt_nonneg _
      · refine (Real.lt_sqrt (by exact_mod_cast ht0)).mpr ?_
        exact_mod_cast ht
  · intro h
    rcases lt_or_le t 0 with ht0 | ht0
    · exact Or.inl ht0
    · refine Or.inr ?_
      have := (Real.lt_sqrt (by exact_mod_cast ht0)).mp h
      exact_mod_cast this

lemma rrIntervals_length (pks : List ℕ) (rate : ℕ) :
    (rrIntervals pks rate).length = pks.length - 1 := by
  unfold rrIntervals
  rw [List.length_zipWith, List.length_tail]
  omega

lemma local_maxima_short {x : List ℚ} (h : x.length ≤ 1) :
    local_maxima_1d x = [] := by
  match x, h with
  | [], _ => rfl
  | [a], _ => rfl

/-- The Feature Extractor's heart-rate peak pass succeeds whenever the
sampling rate is at least `2` (so that the distance `0.6 * rate` passes the
`≥ 1` validation). -/
lemma find_peaks_hr_ok (x : List ℚ) (rate : ℕ) (h2 : 2 ≤ rate) :
    find_peaks x none (some ((3 / 5 : ℚ) * rate)) =
      .ok (selectByPeakDistance x (local_maxima_1d x)
        (Int.toNat ⌈(3 / 5 : ℚ) * rate⌉)) := by
  have hc : (2 : ℚ) ≤ (rate : ℚ) := by exact_mod_cast h2
  have hlt : ¬ ((3 / 5 : ℚ) * (rate : ℚ) < 1) := by nlinarith
  simp only [find_peaks, if_neg hlt, heightFilter]

/-- The Arrhythmia Detector's peak pass succeeds whenever the sampling rate
is at least `3` (so that the truncated distance `int(0.4 * rate)` passes the
`≥ 1` validation). -/
lemma find_peaks_arr_ok (x : List ℚ) (rate : ℕ) (h3 : 3 ≤ rate) :
    find_peaks x (some (1 / 2)) (some ((2 * rate / 5 : ℕ) : ℚ)) =
      .ok (selectByPeakDistance x (heightFilter x (local_maxima_1d x) (some (1 / 2)))
        (2 * rate / 5)) := by
  have hd : 1 ≤ 2 * rate / 5 := by omega
  have hlt : ¬ (((2 * rate / 5 : ℕ) : ℚ) < 1) := by exact_mod_cast Nat.not_lt.mpr hd
  simp only [find_peaks, if_neg hlt]
  rw [Int.ceil_natCast, Int.toNat_natCast]

lemma natDist_lt_of_lt {i j d : ℕ} (hij : i < j) (hclose : j - i < d) :
    natDist i j < d ∧ natDist j i < d := by
  unfold natDist
  rw [if_pos hij.le, if_neg (Nat.not_le.mpr hij)]
  exact ⟨hclose, hclose⟩

/-- Suppression on a candidate set of exactly two close peaks of unequal
heights: the higher one is processed first and discards the other. -/
lemma sbpd_pair (x : List ℚ) (i j d : ℕ) (hij : i < j) (hclose : j - i < d)
    (hne : x.getD i 0 ≠ x.getD j 0) :
    selectByPeakDistance x [i, j] d =
      [if x.getD j 0 < x.getD i 0 then i else j] := by
  obtain ⟨hd1, hd2⟩ := natDist_lt_of_lt hij hclose
  rcases lt_or_gt_of_ne hne with hab | hba
  · -- x[i] < x[j]: candidate 1 (peak j) is processed first and keeps only itself
    have hf : priorityGtB x [i, j] 0 1 = false := by
      unfold priorityGtB
      exact decide_eq_false (by
        rintro (h | ⟨-, hlt⟩)
        · exact absurd h (not_lt_of_gt hab)
        · exact absurd hlt (by omega))
    rw [if_neg (not_lt_of_gt hab)]
    unfold selectByPeakDistance
    change (let order := sortBy (priorityGtB x [i, j]) [0, 1];
      let keep := List.foldl (sbpdStep [i, j] d) [true, true] order;
      List.map (fun k => [i, j].getD k 0)
        (List.filter (fun k => keep.getD k false) [0, 1])) = [j]
    have horder : sortBy (priorityGtB x [i, j]) [0, 1] = [1, 0] := by
      simp [sortBy, insertBy, hf]
    rw [horder]
    have hstep1 : sbpdStep [i, j] d [true, true] 1 = [false, true] := by
      unfold sbpdStep
      rw [if_pos (show ([true, true] : List Bool).getD 1 false = true from rfl)]
      change [if 0 ≠ 1 ∧ natDist i j < d then false else true,
        if 1 ≠ 1 ∧ natDist j j < d then false else true] = [false, true]
      rw [if_pos ⟨by omega, hd1⟩, if_neg (by simp)]
    have hstep2 : sbpdStep [i, j] d [false, true] 0 = [false, true] := by
      unfold sbpdStep
      rw [if_neg (show ¬ ([false, true] : List Bool).getD 0 false = true by decide)]
    show List.map _ (List.filter _ [0, 1]) = [j]
    rw [show List.foldl (sbpdStep [i, j] d) [true, true] [1, 0] =
      sbpdStep [i, j] d (sbpdStep [i, j] d [true, true] 1) 0 from rfl, hstep1, hstep2]
    rfl
  · -- x[j] < x[i]: candidate 0 (peak i) is processed first and keeps only itself
    have hf : priorityGtB x [i, j] 0 1 = true := by
      unfold priorityGtB
      exact decide_eq_true (Or.inl hba)
    rw [if_pos hba]
    unfold selectByPeakDistance
    change (let order := sortBy (priorityGtB x [i, j]) [0, 1];
      let keep := List.foldl (sbpdStep [i, j] d) [true, true] order;
      List.map (fun k => [i, j].getD k 0)
        (List.filter (fun k => keep.getD k false) [0, 1])) = [i]
    have horder : sortBy (priorityGtB x [i, j]) [0, 1] = [0, 1] := by
      simp [sortBy, insertBy, hf]
    rw [horder]
    have hstep1 : sbpdStep [i, j] d [true, true] 0 = [true, false] := by
      unfold sbpdStep
      rw [if_pos (show ([true, true] : List Bool).getD 0 false = true from rfl)]
      change [if 0 ≠ 0 ∧ natDist i i < d then false else true,
        if 1 ≠ 0 ∧ natDist j i < d then false else true] = [true, false]
      rw [if_neg (by simp), if_pos ⟨by omega, hd2⟩]
    have hstep2 : sbpdStep [i, j] d [true, false] 1 = [true, false] := by
      unfold sbpdStep
      rw [if_neg (show ¬ ([true, false] : List Bool).getD 1 false = true by decide)]
    show List.map _ (List.filter _ [0, 1]) = [i]
    rw [show List.foldl (sbpdStep [i, j] d) [true, true] [0, 1] =
      sbpdStep [i, j] d (sbpdStep [i, j] d [true, true] 0) 1 from rfl, hstep1, hstep2]
    rfl

/-- With a successful peak pass, `detect_arrhythmia` reduces to its body on
the RR intervals the pass produces. -/
lemma detect_arrhythmia_eq (x : List ℚ) (rate : ℕ) (thr tw : ℚ)
    (pks : List ℕ)
    (hp : find_peaks x (some (1 / 2)) (some ((2 * rate / 5 : ℕ) : ℚ)) = .ok pks) :
    arrhythmia_detection.detect_arrhythmia x rate thr tw =
      .ok (arrhythmia_detection.detect_arrhythmia_body x rate thr tw
        (if 1 < pks.length then rrIntervals pks rate else []) pks) := by
  unfold arrhythmia_detection.detect_arrhythmia
    arrhythmia_detection.calculate_rr_intervals
  rw [hp]

lemma foldl_min_const {c : ℚ} {l : List ℚ} (h : ∀ v ∈ l, v = c) :
    l.foldl min c = c := by
  induction l with
  | nil => rfl
  | cons a tl ih =>
    rw [List.foldl_cons, h a (List.mem_cons_self a tl), min_self]
    exact ih (fun v hv => h v (List.mem_cons_of_mem _ hv))

lemma foldl_max_const {c : ℚ} {l : List ℚ} (h : ∀ v ∈ l, v = c) :
    l.foldl max c = c := by
  induction l with
  | nil => rfl
  | cons a tl ih =>
    rw [List.foldl_cons, h a (List.mem_cons_self a tl), max_self]
    exact ih (fun v hv => h v (List.mem_cons_of_mem _ hv))

lemma npMin_const {x : List ℚ} {c : ℚ} (hne : x ≠ []) (h : ∀ v ∈ x, v = c) :
    npMin x = c := by
  obtain ⟨a, tl, rfl⟩ := List.exists_cons_of_ne_nil hne
  have ha : a = c := h a (List.mem_cons_self a tl)
  show (a :: tl).foldl min a = c
  rw [List.foldl_cons, min_self, ha]
  exact foldl_min_const (fun v hv => h v (List.mem_cons_of_mem _ hv))

lemma npMax_const {x : List ℚ} {c : ℚ} (hne : x ≠ []) (h : ∀ v ∈ x, v = c) :
    npMax x = c := by
  obtain ⟨a, tl, rfl⟩ := List.exists_cons_of_ne_nil hne
  have ha : a = c := h a (List.mem_cons_self a tl)
  show (a :: tl).foldl max a = c
  rw [List.foldl_cons, max_self, ha]
  exact foldl_max_const (fun v hv => h v (List.mem_cons_of_mem _ hv))

/-! ### Claims -/

/-- C1, counterexample.  The claim quantifies over every positive sampling
rate, but at sampling rate `1` the heart-rate peak pass hands
`scipy.signal.find_peaks` the distance `0.6 * 1 < 1`, which its validation
rejects with a `ValueError`: `extract_features` (with any band-pass
collaborator, here the identity) and `calculate_heart_rate` raise instead of
reporting a null heart rate and an empty per-beat list. -/
theorem C1_counterexample :
    feature_extraction.extract_features (fun s => .ok s) [] 1 =
      .error "distance must be greater or equal to 1" ∧
    feature_extraction.calculate_heart_rate [] 1 =
      .error "distance must be greater or equal to 1" := by
  with_unfolding_all decide

open feature_extraction in
/-- C1, amended: for every signal and sampling rate ≥ 2 the heart-rate pass
(the peaks of `find_peaks` with minimum distance `0.6 * rate`, no height
filter) succeeds; with fewer than 2 peaks `calculate_heart_rate` reports a
null mean rate and an empty per-beat list, otherwise the arithmetic mean of
`60 / interval` over the RR Interval Sequence together with the full
per-beat sequence; and any feature record `extract_features` returns
carries exactly that mean heart rate. -/
theorem C1_heart_rate (x : List ℚ) (rate : ℕ) (h2 : 2 ≤ rate) :
    ∃ pks, find_peaks x none (some ((3 / 5 : ℚ) * rate)) = .ok pks ∧
      (pks.length < 2 → calculate_heart_rate x rate = .ok (none, [])) ∧
      (2 ≤ pks.length → calculate_heart_rate x rate =
        .ok (some (meanQ ((rrIntervals pks rate).map (fun r => 60 / r))),
             (rrIntervals pks rate).map (fun r => 60 / r))) ∧
      (∀ bp rec hr, calculate_heart_rate x rate = .ok hr →
        extract_features bp x rate = .ok rec → rec.heartRate = hr.1) := by
  refine ⟨_, find_peaks_hr_ok x rate h2, ?_, ?_, ?_⟩
  · intro hlen
    unfold calculate_heart_rate
    rw [find_peaks_hr_ok x rate h2]
    exact if_pos hlen
  · intro hlen
    unfold calculate_heart_rate
    rw [find_peaks_hr_ok x rate h2]
    exact if_neg (by omega)
  · intro bp rec hr hhr hrec
    unfold extract_features at hrec
    rw [hhr] at hrec
    rcases hre : calculate_respiratory_rate bp x rate with e | resp <;>
      rw [hre] at hrec
    · simp at hrec
    · rcases hsys : calculate_systolic_amplitude x with e | sys <;>
        rw [hsys] at hrec
      · simp at hrec
      · simp only [Except.ok.injEq] at hrec
        subst hrec
        rfl

/-- C1, witness: `C1_heart_rate` at the signal `[0, 1, 0, 1, 0]` and
sampling rate `2`. -/
theorem C1_witness :
    ∃ pks, find_peaks [0, 1, 0, 1, 0] none (some ((3 / 5 : ℚ) * (2 : ℕ))) = .ok pks ∧
      (pks.length < 2 →
        feature_extraction.calculate_heart_rate [0, 1, 0, 1, 0] 2 = .ok (none, [])) ∧
      (2 ≤ pks.length →
        feature_extraction.calculate_heart_rate [0, 1, 0, 1, 0] 2 =
          .ok (some (meanQ ((rrIntervals pks 2).map (fun r => 60 / r))),
               (rrIntervals pks 2).map (fun r => 60 / r))) ∧
      (∀ bp rec hr,
        feature_extraction.calculate_heart_rate [0, 1, 0, 1, 0] 2 = .ok hr →
        feature_extraction.extract_features bp [0, 1, 0, 1, 0] 2 = .ok rec →
          rec.heartRate = hr.1) :=
  C1_heart_rate [0, 1, 0, 1, 0] 2 (by decide)

open arrhythmia_detection in
/-- C2: whenever the Arrhythmia Detector's peak pass completes with fewer
than 2 peaks (so the RR Interval Sequence is empty, covering the zero-peak
case as well), `detect_arrhythmia` returns `(false, false, null, null)` and
no exception propagates. -/
theorem C2_insufficient_data (x : List ℚ) (rate : ℕ) (thr tw : ℚ)
    (pks : List ℕ)
    (hp : find_peaks x (some (1 / 2)) (some ((2 * rate / 5 : ℕ) : ℚ)) = .ok pks)
    (hlen : pks.length < 2) :
    detect_arrhythmia x rate thr tw = .ok ⟨false, false, none, none⟩ := by
  rw [detect_arrhythmia_eq x rate thr tw pks hp, if_neg (by omega)]
  unfold detect_arrhythmia_body
  simp

/-- C2, witness: `C2_insufficient_data` on the peakless signal `[0, 0, 0]`
at sampling rate `3` and default thresholds. -/
theorem C2_witness :
    arrhythmia_detection.detect_arrhythmia [0, 0, 0] 3 (3 / 20) (1 / 5) =
      .ok ⟨false, false, none, none⟩ :=
  C2_insufficient_data [0, 0, 0] 3 (3 / 20) (1 / 5) []
    (by with_unfolding_all decide) (by decide)

open arrhythmia_detection in
/-- C3: with at least 2 peaks from the Arrhythmia Detector's peak pass,
`detect_arrhythmia` flags an irregular heart rate exactly when the standard
deviation (`np.std`, i.e. the real square root of the population variance)
of the RR Interval Sequence strictly exceeds the heart-rate threshold. -/
theorem C3_irregular_iff_std (x : List ℚ) (rate : ℕ) (thr tw : ℚ)
    (pks : List ℕ) (v : Verdict)
    (hp : find_peaks x (some (1 / 2)) (some ((2 * rate / 5 : ℕ) : ℚ)) = .ok pks)
    (h2 : 2 ≤ pks.length)
    (hv : detect_arrhythmia x rate thr tw = .ok v) :
    v.irregular_heart_rate = true ↔
      (thr : ℝ) < Real.sqrt ((varQ (rrIntervals pks rate) : ℚ) : ℝ) := by
  rw [detect_arrhythmia_eq x rate thr tw pks hp, if_pos (by omega)] at hv
  unfold detect_arrhythmia_body at hv
  rw [if_neg (by rw [rrIntervals_length]; omega)] at hv
  rw [Except.ok.injEq] at hv
  subst hv
  show detect_irregular_heart_rate (rrIntervals pks rate) thr = true ↔ _
  unfold detect_irregular_heart_rate
  rw [if_neg (by rw [rrIntervals_length]; omega), decide_eq_true_eq]
  exact lt_sqrt_iff_sq thr _

/-- C3, witness: `C3_irregular_iff_std` on `[0, 1, 0, 1, 0]` at sampling
rate `3` (peaks `[1, 3]`, a single RR interval, so the standard deviation is
`0` and the flag is false). -/
theorem C3_witness :
    (⟨false, true, none, none⟩ :
        arrhythmia_detection.Verdict).irregular_heart_rate = true ↔
      ((3 / 20 : ℚ) : ℝ) < Real.sqrt ((varQ (rrIntervals [1, 3] 3) : ℚ) : ℝ) :=
  C3_irregular_iff_std [0, 1, 0, 1, 0] 3 (3 / 20) (1 / 5) [1, 3]
    ⟨false, true, none, none⟩ (by with_unfolding_all decide) (by decide)
    (by with_unfolding_all decide)

open arrhythmia_detection in
/-- C4: `detect_arrhythmia` populates the episode bounds exactly when the
irregularity flag is set and at least 2 peaks exist — episode start
`firstPeakIndex / samplingRate`, episode end `lastPeakIndex / samplingRate`
— and otherwise returns both as null. -/
theorem C4_episode_bounds (x : List ℚ) (rate : ℕ) (thr tw : ℚ)
    (pks : List ℕ) (v : Verdict)
    (hp : find_peaks x (some (1 / 2)) (some ((2 * rate / 5 : ℕ) : ℚ)) = .ok pks)
    (hv : detect_arrhythmia x rate thr tw = .ok v) :
    (v.irregular_heart_rate = true ∧ 2 ≤ pks.length →
      v.start_time = some ((pks.headD 0 : ℚ) / (rate : ℚ)) ∧
      v.end_time = some ((pks.getLastD 0 : ℚ) / (rate : ℚ))) ∧
    (¬ (v.irregular_heart_rate = true ∧ 2 ≤ pks.length) →
      v.start_time = none ∧ v.end_time = none) := by
  rw [detect_arrhythmia_eq x rate thr tw pks hp] at hv
  rcases Nat.lt_or_ge pks.length 2 with hlen | hlen
  · rw [if_neg (by omega)] at hv
    unfold detect_arrhythmia_body at hv
    simp only [List.length_nil, true_or, if_pos] at hv
    rw [Except.ok.injEq] at hv
    subst hv
    refine ⟨fun h => absurd h.2 (by omega), fun _ => ⟨rfl, rfl⟩⟩
  · have h1 : 1 < pks.length := by omega
    rw [if_pos h1] at hv
    unfold detect_arrhythmia_body at hv
    rw [if_neg (by rw [rrIntervals_length]; omega)] at hv
    rw [Except.ok.injEq] at hv
    subst hv
    by_cases hirr : detect_irregular_heart_rate (rrIntervals pks rate) thr = true
    · constructor
      · intro _
        constructor <;> simp [hirr, h1]
      · intro hcon
        exact absurd ⟨hirr, hlen⟩ hcon
    · constructor
      · rintro ⟨habs, -⟩
        exact absurd habs hirr
      · intro _
        constructor <;> simp [hirr]

/-- C4, witness: `C4_episode_bounds` on a 23-sample signal at rate `5`
whose five accepted peaks produce the alternating RR Interval Sequence
`[0.6, 1.4, 0.6, 1.4]` (standard deviation `0.4 > 0.15`): the verdict is
irregular with episode bounds `1/5` (first peak) and `21/5` (last peak). -/
theorem C4_witness :
    ((⟨true, true, some (1 / 5), some (21 / 5)⟩ :
        arrhythmia_detection.Verdict).irregular_heart_rate = true ∧
        2 ≤ ([1, 4, 11, 14, 21] : List ℕ).length →
      (⟨true, true, some (1 / 5), some (21 / 5)⟩ :
        arrhythmia_detection.Verdict).start_time =
          some ((([1, 4, 11, 14, 21] : List ℕ).headD 0 : ℚ) / ((5 : ℕ) : ℚ)) ∧
      (⟨true, true, some (1 / 5), some (21 / 5)⟩ :
        arrhythmia_detection.Verdict).end_time =
          some ((([1, 4, 11, 14, 21] : List ℕ).getLastD 0 : ℚ) / ((5 : ℕ) : ℚ))) ∧
    (¬ ((⟨true, true, some (1 / 5), some (21 / 5)⟩ :
        arrhythmia_detection.Verdict).irregular_heart_rate = true ∧
        2 ≤ ([1, 4, 11, 14, 21] : List ℕ).length) →
      (⟨true, true, some (1 / 5), some (21 / 5)⟩ :
        arrhythmia_detection.Verdict).start_time = none ∧
      (⟨true, true, some (1 / 5), some (21 / 5)⟩ :
        arrhythmia_detection.Verdict).end_time = none) :=
  C4_episode_bounds [0, 1, 0, 0, 1, 0, 0, 0, 0, 0, 0, 1, 0, 0, 1, 0, 0, 0, 0, 0, 0, 1, 0]
    5 (3 / 20) (1 / 5) [1, 4, 11, 14, 21] ⟨true, true, some (1 / 5), some (21 / 5)⟩
    (by with_unfolding_all decide) (by with_unfolding_all decide)

/-- C5: the waveform-anomaly test pairs the i-th unconstrained local maximum
of the signal with the i-th local maximum of the negated signal up to the
shorter count and flags an abnormal waveform exactly when some pair's
difference strictly exceeds the waveform threshold; a zero peak or valley
count yields not-abnormal. -/
theorem C5_abnormal_waveform (x : List ℚ) (t : ℚ) :
    (arrhythmia_detection.detect_abnormal_waveform x t = true ↔
      ∃ i < min (local_maxima_1d x).length
          (local_maxima_1d (x.map (fun v => -v))).length,
        t < x.getD ((local_maxima_1d x).getD i 0) 0 -
            x.getD ((local_maxima_1d (x.map (fun v => -v))).getD i 0) 0) ∧
    ((local_maxima_1d x).length = 0 ∨
        (local_maxima_1d (x.map (fun v => -v))).length = 0 →
      arrhythmia_detection.detect_abnormal_waveform x t = false) := by
  have hfix : arrhythmia_detection.detect_abnormal_waveform x t =
      (if min (local_maxima_1d x).length
          (local_maxima_1d (x.map (fun v => -v))).length = 0 then false
       else ((List.range (min (local_maxima_1d x).length
          (local_maxima_1d (x.map (fun v => -v))).length)).map (fun i =>
            x.getD ((local_maxima_1d x).getD i 0) 0 -
            x.getD ((local_maxima_1d (x.map (fun v => -v))).getD i 0) 0)).any
          (fun diff => decide (t < diff))) := rfl
  rw [hfix]
  by_cases hm : min (local_maxima_1d x).length
      (local_maxima_1d (x.map (fun v => -v))).length = 0
  · rw [if_pos hm]
    constructor
    · simp [hm]
    · intro _
      rfl
  · rw [if_neg hm]
    constructor
    · simp [List.any_eq_true, List.mem_map, List.mem_range, decide_eq_true_eq]
    · intro h
      exact absurd (by rcases h with h | h <;> simp [h]) hm

open preprocessing in
/-- C6: on any constant-valued (hence non-empty) signal,
`correct_ppg_signal` takes the zero-range branch and returns an all-zero
sequence of the same length — the division by `max - min` is never reached
on a zero range. -/
theorem C6_constant_normalize (x : List ℚ) (hne : x ≠ [])
    (hc : ∀ v ∈ x, v = x.headD 0) :
    correct_ppg_signal x = .ok (List.replicate x.length 0) := by
  by_cases hneg : npMin x < 0
  · have h0 : ∀ v ∈ x.map (fun v => v - npMin x), v = 0 := by
      intro v hv
      obtain ⟨a, ha, rfl⟩ := List.mem_map.mp hv
      rw [hc a ha, npMin_const hne hc, sub_self]
    have hsne : x.map (fun v => v - npMin x) ≠ [] := by
      simpa using hne
    simp only [correct_ppg_signal, if_neg hne, if_pos hneg]
    rw [npMin_const hsne h0, npMax_const hsne h0, sub_self,
      if_pos rfl, List.length_map]
  · simp only [correct_ppg_signal, if_neg hne, if_neg hneg]
    rw [npMin_const hne hc, npMax_const hne hc, sub_self, if_pos rfl]

/-- C6, witness: `C6_constant_normalize` on the constant signal
`[1/2, 1/2, 1/2]`. -/
theorem C6_witness :
    preprocessing.correct_ppg_signal [1 / 2, 1 / 2, 1 / 2] =
      .ok (List.replicate ([1 / 2, 1 / 2, 1 / 2] : List ℚ).length 0) :=
  C6_constant_normalize [1 / 2, 1 / 2, 1 / 2] (by decide)
    (by with_unfolding_all decide)

open feature_extraction in
/-- C7: for every non-empty signal the SNR is
`mean(signal²) / mean(noise²)` with noise the mean-removed signal, the noise
power is nonnegative (so the source's `> 0` guard coincides with `≠ 0`), and
a noise power of exactly zero yields SNR `0` — no division by zero. -/
theorem C7_snr (x : List ℚ) (hne : x ≠ []) :
    0 ≤ meanQ ((x.map (fun v => v - meanQ x)).map (fun v => v ^ 2)) ∧
    (meanQ ((x.map (fun v => v - meanQ x)).map (fun v => v ^ 2)) = 0 →
      calculate_signal_quality_metrics x = 0) ∧
    (meanQ ((x.map (fun v => v - meanQ x)).map (fun v => v ^ 2)) ≠ 0 →
      calculate_signal_quality_metrics x =
        meanQ (x.map (fun v => v ^ 2)) /
          meanQ ((x.map (fun v => v - meanQ x)).map (fun v => v ^ 2))) := by
  clear hne
  have hnn : 0 ≤ meanQ ((x.map (fun v => v - meanQ x)).map (fun v => v ^ 2)) := by
    unfold meanQ
    apply div_nonneg _ (Nat.cast_nonneg _)
    apply List.sum_nonneg
    intro v hv
    obtain ⟨a, -, rfl⟩ := List.mem_map.mp hv
    positivity
  refine ⟨hnn, ?_, ?_⟩
  · intro h0
    simp only [calculate_signal_quality_metrics]
    rw [h0]
    exact if_neg (lt_irrefl 0)
  · intro hne0
    have hpos : 0 < meanQ ((x.map (fun v => v - meanQ x)).map (fun v => v ^ 2)) :=
      lt_of_le_of_ne hnn (Ne.symm hne0)
    simp only [calculate_signal_quality_metrics]
    rw [if_pos hpos]

/-- C7, witness: `C7_snr` on the signal `[1, 2]` (noise power `1/4`). -/
theorem C7_witness :
    0 ≤ meanQ ((([1, 2] : List ℚ).map (fun v => v - meanQ [1, 2])).map
        (fun v => v ^ 2)) ∧
    (meanQ ((([1, 2] : List ℚ).map (fun v => v - meanQ [1, 2])).map
        (fun v => v ^ 2)) = 0 →
      feature_extraction.calculate_signal_quality_metrics [1, 2] = 0) ∧
    (meanQ ((([1, 2] : List ℚ).map (fun v => v - meanQ [1, 2])).map
        (fun v => v ^ 2)) ≠ 0 →
      feature_extraction.calculate_signal_quality_metrics [1, 2] =
        meanQ (([1, 2] : List ℚ).map (fun v => v ^ 2)) /
          meanQ ((([1, 2] : List ℚ).map (fun v => v - meanQ [1, 2])).map
            (fun v => v ^ 2))) :=
  C7_snr [1, 2] (by decide)

/-- C8, counterexample.  The code truncates the distance with `int(...)`
before the call, so at sampling rate `8` the effective minimum distance is
`int(3.2) = 3`, whereas handing `find_peaks` the claimed `0.4 * 8 = 3.2`
would round it up to `4`: on `[0, 1, 0, 0, 0.9, 0]` the claimed pass keeps
only the higher peak `[1]` while the code keeps both peaks `[1, 4]`. -/
theorem C8_counterexample :
    arrhythmia_peak_pass_spec [0, 1, 0, 0, 9 / 10, 0] 8 = .ok [1] ∧
    arrhythmia_detection.calculate_rr_intervals [0, 1, 0, 0, 9 / 10, 0] 8 =
      .ok ([3 / 8], [1, 4]) ∧
    Except.map Prod.snd (arrhythmia_detection.calculate_rr_intervals
        [0, 1, 0, 0, 9 / 10, 0] 8) ≠
      arrhythmia_peak_pass_spec [0, 1, 0, 0, 9 / 10, 0] 8 := by
  with_unfolding_all decide

open arrhythmia_detection in
/-- C8, amended: for every signal and sampling rate ≥ 3, the Arrhythmia
Detector's peak pass succeeds and locates peaks with height threshold `0.5`
and minimum inter-peak distance `int(0.4 * rate)` — the factor-`0.4`
distance truncated to an integer before the call (for rates `1` and `2` the
truncated distance is `0` and `find_peaks` raises instead). -/
theorem C8_peak_pass (x : List ℚ) (rate : ℕ) (h3 : 3 ≤ rate) :
    calculate_rr_intervals x rate =
      .ok (if 1 < (selectByPeakDistance x (heightFilter x (local_maxima_1d x)
            (some (1 / 2))) (2 * rate / 5)).length then
          rrIntervals (selectByPeakDistance x (heightFilter x (local_maxima_1d x)
            (some (1 / 2))) (2 * rate / 5)) rate
        else [],
        selectByPeakDistance x (heightFilter x (local_maxima_1d x)
          (some (1 / 2))) (2 * rate / 5)) := by
  unfold calculate_rr_intervals
  rw [find_peaks_arr_ok x rate h3]

/-- C8, witness: `C8_peak_pass` on `[0, 1, 0, 1, 0]` at sampling rate `3`. -/
theorem C8_witness :
    arrhythmia_detection.calculate_rr_intervals [0, 1, 0, 1, 0] 3 =
      .ok (if 1 < (selectByPeakDistance [0, 1, 0, 1, 0]
            (heightFilter [0, 1, 0, 1, 0] (local_maxima_1d [0, 1, 0, 1, 0])
              (some (1 / 2))) (2 * 3 / 5)).length then
          rrIntervals (selectByPeakDistance [0, 1, 0, 1, 0]
            (heightFilter [0, 1, 0, 1, 0] (local_maxima_1d [0, 1, 0, 1, 0])
              (some (1 / 2))) (2 * 3 / 5)) 3
        else [],
        selectByPeakDistance [0, 1, 0, 1, 0]
          (heightFilter [0, 1, 0, 1, 0] (local_maxima_1d [0, 1, 0, 1, 0])
            (some (1 / 2))) (2 * 3 / 5)) :=
  C8_peak_pass [0, 1, 0, 1, 0] 3 (by decide)

/-- C9: when the height-filtered candidate set of the Peak Locator consists
of exactly two peaks of unequal heights closer than the minimum distance,
the higher-valued peak is retained and the lower-valued one suppressed. -/
theorem C9_tie_break (x : List ℚ) (height : Option ℚ) (i j d : ℕ)
    (hcand : heightFilter x (local_maxima_1d x) height = [i, j])
    (hij : i < j) (hclose : j - i < d) (hd : 1 ≤ d)
    (hne : x.getD i 0 ≠ x.getD j 0) :
    find_peaks x height (some (d : ℚ)) =
      .ok [if x.getD j 0 < x.getD i 0 then i else j] := by
  have hlt : ¬ ((d : ℕ) : ℚ) < 1 := by exact_mod_cast Nat.not_lt.mpr hd
  simp only [find_peaks, if_neg hlt]
  rw [hcand, Int.ceil_natCast, Int.toNat_natCast,
    sbpd_pair x i j d hij hclose hne]

/-- C9, witness: `C9_tie_break` on `[0, 2, 0, 1, 0]` (candidates at indices
`1` and `3`, heights `2` and `1`, gap `2 < 3`): the higher peak `1` is
kept. -/
theorem C9_witness :
    find_peaks [0, 2, 0, 1, 0] none (some ((3 : ℕ) : ℚ)) =
      .ok [if ([0, 2, 0, 1, 0] : List ℚ).getD 3 0 <
          ([0, 2, 0, 1, 0] : List ℚ).getD 1 0 then 1 else 3] :=
  C9_tie_break [0, 2, 0, 1, 0] none 1 3 3 (by with_unfolding_all decide)
    (by decide) (by decide) (by decide) (by with_unfolding_all decide)

/-- C10, counterexample.  The claim quantifies over every positive sampling
rate, but at rate `1` the Feature Extractor's pass (distance `0.6 < 1`) and
the Arrhythmia Detector's pass (distance `int(0.4) = 0 < 1`) are rejected by
the `find_peaks` distance validation even on empty or single-sample
signals, raising instead of returning an empty Peak Set. -/
theorem C10_counterexample :
    find_peaks [] none (some ((3 / 5 : ℚ) * ((1 : ℕ) : ℚ))) =
      .error "distance must be greater or equal to 1" ∧
    find_peaks [(1 : ℚ)] (some (1 / 2)) (some ((2 * 1 / 5 : ℕ) : ℚ)) =
      .error "distance must be greater or equal to 1" := by
  with_unfolding_all decide

/-- C10, amended: on every empty or single-sample signal the Feature
Extractor's peak pass returns an empty Peak Set without raising for every
sampling rate ≥ 2, and the Arrhythmia Detector's peak pass does so for
every sampling rate ≥ 3 (below those rates the distance validation
raises). -/
theorem C10_degenerate_empty (x : List ℚ) (rate : ℕ) :
    (2 ≤ rate → x.length ≤ 1 →
      find_peaks x none (some ((3 / 5 : ℚ) * rate)) = .ok []) ∧
    (3 ≤ rate → x.length ≤ 1 →
      find_peaks x (some (1 / 2)) (some ((2 * rate / 5 : ℕ) : ℚ)) = .ok []) := by
  constructor
  · intro h2 hlen
    rw [find_peaks_hr_ok x rate h2, local_maxima_short hlen]
    rfl
  · intro h3 hlen
    rw [find_peaks_arr_ok x rate h3, local_maxima_short hlen]
    rfl

/-- C10, witness: `C10_degenerate_empty` on the single-sample signal `[0]`
at sampling rate `3`. -/
theorem C10_witness :
    find_peaks [(0 : ℚ)] none (some ((3 / 5 : ℚ) * ((3 : ℕ) : ℚ))) = .ok [] ∧
    find_peaks [(0 : ℚ)] (some (1 / 2)) (some ((2 * 3 / 5 : ℕ) : ℚ)) = .ok [] :=
  ⟨(C10_degenerate_empty [0] 3).1 (by decide) (by decide),
   (C10_degenerate_empty [0] 3).2 (by decide) (by decide)⟩

end PPG
